import Mathlib

/-!
Verification of the Uniswap swap-script repository.

This file shallow-embeds the self-contained logic of the repository:
  * `src/get_pool_address.js` — deterministic Uniswap-V3 pool address
    derivation (`getPoolAddress`), including the behaviour of the
    `@ethersproject` helpers it calls (`getAddress` address
    normalisation/validation with its keccak-256 checksum, and the
    tightly-packed `solidityKeccak256`);
  * the quote-selection loop `getBestQuote` of `src/app.js` and
    `src/d_swap_from_mapping.js` (the remote quoter call is an oracle
    parameter);
  * the token-name resolution `findTokenAddress`, the slippage heuristic
    `calculateSlippage`, the `POST /quote` HTTP handler, and the
    approve-then-swap flows (remote calls again as oracle parameters).

Machine words are modelled as `Nat` with explicit masking; JavaScript
strings as lists of their code units (the repository only manipulates
ASCII data); fallible code returns `Except`.
-/

/-! ## Keccak-256 (original Keccak padding 0x01, as used by Ethereum)

Bytes are `Nat` values below 256; lanes are `Nat` values below 2^64.
The state is a flat list of 25 lanes, index `i = x + 5*y`.
-/

def UMASK : Nat := 18446744073709551615

def rotl64 (x n : Nat) : Nat :=
  ((x <<< n) ||| (x >>> (64 - n))) &&& UMASK

def keccakRC : List Nat :=
  [0x0000000000000001, 0x0000000000008082, 0x800000000000808a, 0x8000000080008000,
   0x000000000000808b, 0x0000000080000001, 0x8000000080008081, 0x8000000000008009,
   0x000000000000008a, 0x0000000000000088, 0x0000000080008009, 0x000000008000000a,
   0x000000008000808b, 0x800000000000008b, 0x8000000000008089, 0x8000000000008003,
   0x8000000000008002, 0x8000000000000080, 0x000000000000800a, 0x800000008000000a,
   0x8000000080008081, 0x8000000000008080, 0x0000000080000001, 0x8000000080008008]

def keccakRound (rc : Nat) (s : List Nat) : List Nat :=
  match s with
  | [a0, a1, a2, a3, a4, a5, a6, a7, a8, a9,
     a10, a11, a12, a13, a14, a15, a16, a17, a18, a19,
     a20, a21, a22, a23, a24] =>
    -- theta
    let c0 := a0 ^^^ a5 ^^^ a10 ^^^ a15 ^^^ a20
    let c1 := a1 ^^^ a6 ^^^ a11 ^^^ a16 ^^^ a21
    let c2 := a2 ^^^ a7 ^^^ a12 ^^^ a17 ^^^ a22
    let c3 := a3 ^^^ a8 ^^^ a13 ^^^ a18 ^^^ a23
    let c4 := a4 ^^^ a9 ^^^ a14 ^^^ a19 ^^^ a24
    let d0 := c4 ^^^ rotl64 c1 1
    let d1 := c0 ^^^ rotl64 c2 1
    let d2 := c1 ^^^ rotl64 c3 1
    let d3 := c2 ^^^ rotl64 c4 1
    let d4 := c3 ^^^ rotl64 c0 1
    let t0 := a0 ^^^ d0
    let t1 := a1 ^^^ d1
    let t2 := a2 ^^^ d2
    let t3 := a3 ^^^ d3
    let t4 := a4 ^^^ d4
    let t5 := a5 ^^^ d0
    let t6 := a6 ^^^ d1
    let t7 := a7 ^^^ d2
    let t8 := a8 ^^^ d3
    let t9 := a9 ^^^ d4
    let t10 := a10 ^^^ d0
    let t11 := a11 ^^^ d1
    let t12 := a12 ^^^ d2
    let t13 := a13 ^^^ d3
    let t14 := a14 ^^^ d4
    let t15 := a15 ^^^ d0
    let t16 := a16 ^^^ d1
    let t17 := a17 ^^^ d2
    let t18 := a18 ^^^ d3
    let t19 := a19 ^^^ d4
    let t20 := a20 ^^^ d0
    let t21 := a21 ^^^ d1
    let t22 := a22 ^^^ d2
    let t23 := a23 ^^^ d3
    let t24 := a24 ^^^ d4
    -- rho and pi combined: b_i = rotl(t_{sigma(i)}, offset_{sigma(i)})
    let b0 := t0
    let b1 := rotl64 t6 44
    let b2 := rotl64 t12 43
    let b3 := rotl64 t18 21
    let b4 := rotl64 t24 14
    let b5 := rotl64 t3 28
    let b6 := rotl64 t9 20
    let b7 := rotl64 t10 3
    let b8 := rotl64 t16 45
    let b9 := rotl64 t22 61
    let b10 := rotl64 t1 1
    let b11 := rotl64 t7 6
    let b12 := rotl64 t13 25
    let b13 := rotl64 t19 8
    let b14 := rotl64 t20 18
    let b15 := rotl64 t4 27
    let b16 := rotl64 t5 36
    let b17 := rotl64 t11 10
    let b18 := rotl64 t17 15
    let b19 := rotl64 t23 56
    let b20 := rotl64 t2 62
    let b21 := rotl64 t8 55
    let b22 := rotl64 t14 39
    let b23 := rotl64 t15 41
    let b24 := rotl64 t21 2
    -- chi, then iota on lane 0
    let o0 := b0 ^^^ ((b1 ^^^ UMASK) &&& b2) ^^^ rc
    let o1 := b1 ^^^ ((b2 ^^^ UMASK) &&& b3)
    let o2 := b2 ^^^ ((b3 ^^^ UMASK) &&& b4)
    let o3 := b3 ^^^ ((b4 ^^^ UMASK) &&& b0)
    let o4 := b4 ^^^ ((b0 ^^^ UMASK) &&& b1)
    let o5 := b5 ^^^ ((b6 ^^^ UMASK) &&& b7)
    let o6 := b6 ^^^ ((b7 ^^^ UMASK) &&& b8)
    let o7 := b7 ^^^ ((b8 ^^^ UMASK) &&& b9)
    let o8 := b8 ^^^ ((b9 ^^^ UMASK) &&& b5)
    let o9 := b9 ^^^ ((b5 ^^^ UMASK) &&& b6)
    let o10 := b10 ^^^ ((b11 ^^^ UMASK) &&& b12)
    let o11 := b11 ^^^ ((b12 ^^^ UMASK) &&& b13)
    let o12 := b12 ^^^ ((b13 ^^^ UMASK) &&& b14)
    let o13 := b13 ^^^ ((b14 ^^^ UMASK) &&& b10)
    let o14 := b14 ^^^ ((b10 ^^^ UMASK) &&& b11)
    let o15 := b15 ^^^ ((b16 ^^^ UMASK) &&& b17)
    let o16 := b16 ^^^ ((b17 ^^^ UMASK) &&& b18)
    let o17 := b17 ^^^ ((b18 ^^^ UMASK) &&& b19)
    let o18 := b18 ^^^ ((b19 ^^^ UMASK) &&& b15)
    let o19 := b19 ^^^ ((b15 ^^^ UMASK) &&& b16)
    let o20 := b20 ^^^ ((b21 ^^^ UMASK) &&& b22)
    let o21 := b21 ^^^ ((b22 ^^^ UMASK) &&& b23)
    let o22 := b22 ^^^ ((b23 ^^^ UMASK) &&& b24)
    let o23 := b23 ^^^ ((b24 ^^^ UMASK) &&& b20)
    let o24 := b24 ^^^ ((b20 ^^^ UMASK) &&& b21)
    [o0, o1, o2, o3, o4, o5, o6, o7, o8, o9,
     o10, o11, o12, o13, o14, o15, o16, o17, o18, o19,
     o20, o21, o22, o23, o24]
  | _ => s

def keccakF (s : List Nat) : List Nat :=
  keccakRC.foldl (fun st rc => keccakRound rc st) s

/-- Little-endian byte list to lane value. -/
def laneOfBytes (bs : List Nat) : Nat :=
  bs.foldr (fun b acc => acc * 256 + b) 0

/-- Split a byte list into 8-byte little-endian lanes (fuel-bounded). -/
def chunks8 (fuel : Nat) (bs : List Nat) : List Nat :=
  match fuel, bs with
  | 0, _ => []
  | _, [] => []
  | n + 1, bs => laneOfBytes (bs.take 8) :: chunks8 n (bs.drop 8)

def xorInto (block : List Nat) (st : List Nat) : List Nat :=
  match block, st with
  | [], s => s
  | _, [] => []
  | b :: bs, x :: xs => (x ^^^ b) :: xorInto bs xs

/-- Original Keccak multi-rate padding with domain byte 0x01. -/
def padKeccak (msg : List Nat) : List Nat :=
  let padLen := 136 - msg.length % 136
  if padLen == 1 then msg ++ [0x81]
  else msg ++ [0x01] ++ List.replicate (padLen - 2) 0 ++ [0x80]

def absorb (fuel : Nat) (st : List Nat) (msg : List Nat) : List Nat :=
  match fuel, msg with
  | 0, _ => st
  | _, [] => st
  | n + 1, msg =>
    absorb n (keccakF (xorInto (chunks8 17 (msg.take 136)) st)) (msg.drop 136)

/-- Lane value to `fuel` little-endian bytes. -/
def bytesOfLane (fuel : Nat) (x : Nat) : List Nat :=
  match fuel with
  | 0 => []
  | n + 1 => (x % 256) :: bytesOfLane n (x / 256)

/-- Keccak-256 of a byte list, as a 32-byte list: the squeeze of the
first four lanes of the final state. -/
def keccak256 (msg : List Nat) : List Nat :=
  let st := absorb (msg.length / 136 + 1) (List.replicate 25 0) (padKeccak msg)
  bytesOfLane 8 (st.getD 0 0) ++ bytesOfLane 8 (st.getD 1 0) ++
    bytesOfLane 8 (st.getD 2 0) ++ bytesOfLane 8 (st.getD 3 0)

/-! ## JavaScript strings

JavaScript strings are sequences of UTF-16 code units; the repository
only manipulates ASCII data, so a string is modelled as the list of its
code points (`JStr`), and `jcodes` converts a Lean string literal. -/

set_option maxRecDepth 100000

deriving instance DecidableEq for Except

abbrev JStr : Type := List Nat

def jcodes (s : String) : JStr := s.data.map Char.toNat

/-- JavaScript `String.prototype.toLowerCase`, restricted to the ASCII range the
repository uses. -/
def asciiLower (c : Nat) : Nat := if 65 ≤ c ∧ c ≤ 90 then c + 32 else c

/-- JavaScript `String.prototype.toUpperCase`, restricted to the ASCII range. -/
def asciiUpper (c : Nat) : Nat := if 97 ≤ c ∧ c ≤ 122 then c - 32 else c

def toLowerCodes (l : JStr) : JStr := l.map asciiLower

/-- The JavaScript `<` comparison on strings: lexicographic on code units. -/
def strLt : JStr → JStr → Bool
  | [], [] => false
  | [], _ :: _ => true
  | _ :: _, [] => false
  | c :: cs, d :: ds =>
    if c < d then true
    else if d < c then false
    else strLt cs ds

/-! ## Character classes and hex rendering (all on code units) -/

def isDigitCode (c : Nat) : Bool := 48 ≤ c && c ≤ 57

def isLowerHexLetter (c : Nat) : Bool := 97 ≤ c && c ≤ 102

def isUpperHexLetter (c : Nat) : Bool := 65 ≤ c && c ≤ 70

def isHexCode (c : Nat) : Bool := isDigitCode c || isLowerHexLetter c || isUpperHexLetter c

/-- A code unit that is a digit or a lowercase hex letter. -/
def isLowerHexCode (c : Nat) : Bool := isDigitCode c || isLowerHexLetter c

def isAlnumCode (c : Nat) : Bool :=
  isDigitCode c || (65 ≤ c && c ≤ 90) || (97 ≤ c && c ≤ 122)

/-- Value of a hex digit code unit (any case). -/
def hexVal (c : Nat) : Nat :=
  if isDigitCode c then c - 48 else if isUpperHexLetter c then c - 55 else c - 87

/-- Big-endian value of a hex digit string. -/
def hexValOfCodes (l : JStr) : Nat := l.foldl (fun n c => n * 16 + hexVal c) 0

/-- Lowercase hex digit code unit of a value below 16. -/
def hexDigitCode (d : Nat) : Nat := if d < 10 then 48 + d else 87 + d

/-- Little-endian list of `fuel` hex digit code units of `v`. -/
def hexRev (fuel v : Nat) : JStr :=
  match fuel with
  | 0 => []
  | n + 1 => hexDigitCode (v % 16) :: hexRev n (v / 16)

/-- Value `v` as exactly `width` lowercase hex digits, big-endian. -/
def hexChars (width v : Nat) : JStr := (hexRev width v).reverse

/-- Lowercase hex rendering of a byte list. -/
def hexOfBytes (bs : List Nat) : JStr :=
  (bs.map (fun b => [hexDigitCode (b / 16), hexDigitCode (b % 16)])).flatten

/-- Parse pairs of hex digit code units into bytes. -/
def bytePairs : JStr → List Nat
  | c1 :: c2 :: rest => (hexVal c1 * 16 + hexVal c2) :: bytePairs rest
  | _ => []

/-- Bytes of a `0x`-prefixed hex string constant. -/
def hexBytes (s : String) : List Nat := bytePairs ((jcodes s).drop 2)

/-- Value `v` as `width` big-endian bytes. -/
def bytesBE (width v : Nat) : List Nat := (bytesOfLane width v).reverse

/-! ## `getAddress` from `@ethersproject/address`

`getAddress` accepts a 40-hex-digit string (with optional `0x` marker;
mixed-case input must carry a valid EIP-55 checksum) or an ICAP `XE..`
address, and returns the EIP-55 checksummed form; anything else throws.
All error strings below are the `reason` of the corresponding
`logger.throwArgumentError` call. -/

/-- The EIP-55 checksummed form of a 40-hex-digit string: lowercase it,
keccak-hash its ASCII bytes, and uppercase every digit whose
corresponding hash nibble is at least 8. -/
def checksumCodes (digits : JStr) : JStr :=
  let lower := toLowerCodes digits
  let hashed := keccak256 lower
  let nibs := (hashed.map (fun b => [b / 16, b % 16])).flatten
  List.zipWith (fun c n => if 8 ≤ n then asciiUpper c else c) lower nibs

/-- Strip an optional `0x` marker. -/
def stripHexMarker (l : JStr) : JStr := if l.take 2 == [48, 120] then l.drop 2 else l

/-- The test `address.match(/^(0x)?[0-9a-fA-F]{40}$/)`. -/
def isHexAddrStr (l : JStr) : Bool :=
  (stripHexMarker l).length == 40 && (stripHexMarker l).all isHexCode

/-- The test `address.match(/([A-F].*[a-f])|([a-f].*[A-F])/)` on the
`0x`-prefixed form: the digits contain both an uppercase and a lowercase
hex letter. -/
def hasMixedCase (digits : JStr) : Bool :=
  digits.any isUpperHexLetter && digits.any isLowerHexLetter

/-- The test `address.match(/^XE[0-9]{2}[0-9A-Za-z]{30,31}$/)`. -/
def isIcapAddrStr (l : JStr) : Bool :=
  match l with
  | 88 :: 69 :: d1 :: d2 :: rest =>
    isDigitCode d1 && isDigitCode d2 && rest.all isAlnumCode &&
      (rest.length == 30 || rest.length == 31)
  | _ => false

/-- Base-36 digit value (case-insensitive), as in BN.js. -/
def val36 (c : Nat) : Nat :=
  if isDigitCode c then c - 48 else if 65 ≤ c ∧ c ≤ 90 then c - 55 else c - 87

def base36Val (l : JStr) : Nat := l.foldl (fun n c => n * 36 + val36 c) 0

/-- The IBAN mod-97 checksum of `ethers` `ibanChecksum`: uppercase the
address, move the first four characters to the end replacing the two
check digits by `00`, expand letters to two-digit values, and reduce
modulo 97. -/
def ibanCheckVal (l : JStr) : Nat :=
  let s := l.map asciiUpper
  let rearranged := s.drop 4 ++ s.take 2 ++ [48, 48]
  let n := rearranged.foldl
    (fun acc c => if isDigitCode c then acc * 10 + (c - 48) else acc * 100 + (c - 55)) 0
  98 - n % 97

/-- The two ICAP check digits of the input match `ibanChecksum`. -/
def ibanOk (l : JStr) : Bool :=
  10 * (l.getD 2 0 - 48) + (l.getD 3 0 - 48) == ibanCheckVal l

def TWO_POW_160 : Nat := 1461501637330902918203684832716283019655932542976

/-- Model of `getAddress` from `@ethersproject/address`: the result is the
checksummed form `0x` + `checksumCodes digits`, where mixed-case hex
input must already equal its own checksummed form. -/
def getAddress (s : JStr) : Except String JStr :=
  if isHexAddrStr s then
    if hasMixedCase (stripHexMarker s) &&
        (48 :: 120 :: checksumCodes (stripHexMarker s) ≠ 48 :: 120 :: stripHexMarker s) then
      .error "bad address checksum"
    else
      .ok (48 :: 120 :: checksumCodes (stripHexMarker s))
  else if isIcapAddrStr s then
    if ibanOk s then
      if base36Val (s.drop 4) < TWO_POW_160 then
        .ok (48 :: 120 :: checksumCodes (hexChars 40 (base36Val (s.drop 4))))
      else
        .error "invalid address"
    else
      .error "bad icap checksum"
  else
    .error "invalid address"

/-! ## `getPoolAddress` from `src/get_pool_address.js` -/

def FACTORY_ADDRESS : String := "0x1F98431c8aD98523631AE4a59f267346ea31F984"

def POOL_INIT_CODE_HASH : String :=
  "0xe34f4def8b9951b4b0f4aaf0a3cbe9dc9f7a76bb2fa938612efb8e4e0d4b1d3e"

/-- Tight `solidityPack` encoding of an `address` argument: the 20 bytes
of its value (the argument is an already-checksummed `0x…` string). -/
def addrPackBytes (t : JStr) : List Nat := bytesBE 20 (hexValOfCodes (t.drop 2))

/-- The last 40 code units of a hex string (`create2Hash.slice(-40)`). -/
def sliceLast40 (l : JStr) : JStr := l.drop (l.length - 40)

/-- Function `getPoolAddress(tokenA, tokenB, fee)` of `src/get_pool_address.js`:
validate and normalise both addresses, order them by lowercase form,
hash the tightly packed `(token0, token1, fee)` into the create2 salt,
hash `0xff ++ factory ++ salt ++ init code hash`, and checksum the last
20 bytes.  A fee of 2^24 or more makes the `uint24` packing throw. -/
def getPoolAddress (tokenA tokenB : JStr) (fee : Nat) : Except String JStr := do
  let addressA ← getAddress tokenA
  let addressB ← getAddress tokenB
  let (token0, token1) :=
    if strLt (toLowerCodes addressA) (toLowerCodes addressB)
    then (addressA, addressB)
    else (addressB, addressA)
  if fee < 16777216 then
    let salt := keccak256 (addrPackBytes token0 ++ addrPackBytes token1 ++ bytesBE 3 fee)
    let create2Hash :=
      keccak256 ([0xff] ++ hexBytes FACTORY_ADDRESS ++ salt ++ hexBytes POOL_INIT_CODE_HASH)
    getAddress (48 :: 120 :: sliceLast40 (hexOfBytes create2Hash))
  else
    .error "value out-of-bounds"

/-- The Pool Locator exactly as the spec (§4.1) phrases its algorithm:
normalise both identifiers to canonical checksummed form; order them
ascending by lowercase value to get `(token0, token1)`; compute a
keccak-256 fingerprint over the ordered triple `(token0, token1, fee)`;
compute a second fingerprint over the fixed one-byte marker `0xff`, the
fixed factory identifier, the first fingerprint and the fixed
bytecode-hash constant; the result is the low 20 bytes of that second
fingerprint, re-encoded in canonical checksummed form. -/
def locatePool (tokenA tokenB : JStr) (fee : Nat) : Except String JStr := do
  let a ← getAddress tokenA
  let b ← getAddress tokenB
  let token0 := if strLt (toLowerCodes a) (toLowerCodes b) then a else b
  let token1 := if strLt (toLowerCodes a) (toLowerCodes b) then b else a
  if fee < 16777216 then
    let fingerprint1 :=
      keccak256 (addrPackBytes token0 ++ addrPackBytes token1 ++ bytesBE 3 fee)
    let fingerprint2 :=
      keccak256 ([0xff] ++ hexBytes FACTORY_ADDRESS ++ fingerprint1 ++
        hexBytes POOL_INIT_CODE_HASH)
    .ok (48 :: 120 :: checksumCodes (hexOfBytes (fingerprint2.drop 12)))
  else
    .error "value out-of-bounds"

/-! ## The quote-selection loop of `src/app.js` / `src/d_swap_from_mapping.js`

The remote `quoter.callStatic.quoteExactInputSingle` call is an oracle
parameter `q` from fee tier to either an output amount or an error. -/

/-- Constant `feeTiers = [500, 3000, 10000]` of `src/app.js`. -/
def feeTiers : List Nat := [500, 3000, 10000]

/-- Loop `for (let fee of feeTiers) { try … return { fee, amountOut }; }
catch … continue } throw new Error(errMsg)` loop of `getBestQuote`,
generic in the tier list and in the final error message. -/
def getBestQuoteGo (q : Nat → Except JStr Nat) (errMsg : JStr) :
    List Nat → Except JStr (Nat × Nat)
  | [] => .error errMsg
  | fee :: rest =>
    match q fee with
    | .ok amountOut => .ok (fee, amountOut)
    | .error _ => getBestQuoteGo q errMsg rest

/-- The fee tiers for which the loop of `getBestQuoteGo` actually issues
a quoter call, in order. -/
def quoterCallsGo (q : Nat → Except JStr Nat) : List Nat → List Nat
  | [] => []
  | fee :: rest =>
    match q fee with
    | .ok _ => [fee]
    | .error _ => fee :: quoterCallsGo q rest

namespace App

/-- Function `getBestQuote` of `src/app.js`. -/
def getBestQuote (q : Nat → Except JStr Nat) : Except JStr (Nat × Nat) :=
  getBestQuoteGo q (jcodes "No valid liquidity pool found.") feeTiers

end App

namespace DSwap

/-- Function `getBestQuote` of `src/d_swap_from_mapping.js`. -/
def getBestQuote (q : Nat → Except JStr Nat) : Except JStr (Nat × Nat) :=
  getBestQuoteGo q (jcodes "No valid pools available for this token pair.") feeTiers

end DSwap

/-! ## Token resolution from the name/symbol mapping -/

/-- One value of the `mapping.json` object: display name and symbol. -/
structure TokenInfo where
  name : JStr
  symbol : JStr
deriving DecidableEq

/-- Test `info.name.toLowerCase() === t || info.symbol.toLowerCase() === t`. -/
def entryMatches (t : JStr) (info : TokenInfo) : Bool :=
  toLowerCodes info.name == t || toLowerCodes info.symbol == t

namespace App

/-- Function `findTokenAddress` of `src/app.js`: scan the mapping entries in
object order and return the address of the first entry whose name or
symbol matches case-insensitively; otherwise throw
`Token not found: ${tokenStr}`. -/
def findTokenAddress (tokenMap : List (JStr × TokenInfo)) (tokenStr : JStr) :
    Except JStr JStr :=
  let t := toLowerCodes tokenStr
  match tokenMap.find? (fun e => entryMatches t e.2) with
  | some e => .ok e.1
  | none => .error (jcodes "Token not found: " ++ tokenStr)

end App

namespace DSwap

/-- Function `findTokenAddress` of `src/d_swap_from_mapping.js`: same scan, with
a different error message. -/
def findTokenAddress (tokenMap : List (JStr × TokenInfo)) (tokenStr : JStr) :
    Except JStr JStr :=
  let t := toLowerCodes tokenStr
  match tokenMap.find? (fun e => entryMatches t e.2) with
  | some e => .ok e.1
  | none =>
    .error (jcodes "Could not find a token with name or symbol matching the input in mapping.json")

end DSwap

/-! ## The slippage heuristic

`calculateSlippage` of `src/d_swap_from_mapping.js` (and the identical
copy in `src/app.js`).  JavaScript numbers are IEEE doubles; every
operation performed on these particular constants is exact in double
precision (`0.005 * 2 === 0.01`, `0.005 * 100 === 0.5`,
`0.01 * 100 === 1`, `0.03 * 100 === 3` hold exactly), so the values are
modelled as the rationals the literals denote. -/

def BASE_SLIPPAGE : ℚ := 5 / 1000

def MAX_SLIPPAGE : ℚ := 3 / 100

def calculateSlippage (tokenIn tokenOut : JStr) : ℚ :=
  if tokenIn == jcodes "weth" && tokenOut == jcodes "usdt" then
    BASE_SLIPPAGE
  else if tokenIn == jcodes "weth" || tokenOut == jcodes "weth" then
    min (BASE_SLIPPAGE * 2) MAX_SLIPPAGE
  else
    MAX_SLIPPAGE

/-- Computation `amountOut.mul(100 - (dynamicSlippage * 100)).div(100)`:
`BigNumber.from` of a JavaScript number throws unless the number is an
integer, so the product exists only when `100 - slippage * 100` is a
non-negative integer, and `.div` truncates. -/
def amountOutMinimum (amountOut : Nat) (slippage : ℚ) : Option Nat :=
  let m := 100 - slippage * 100
  if m.den = 1 ∧ 0 ≤ m.num then some (amountOut * m.num.toNat / 100) else none

/-! ## The `POST /quote` handler of `src/app.js`

`parseEther`, the quoter and `formatUnits` are oracle parameters; the
response is the HTTP status paired with the JSON body shape. -/

/-- The three request-body fields, each possibly absent. -/
structure QuoteRequest where
  amountIn : Option JStr
  tokenIn : Option JStr
  tokenOut : Option JStr

inductive QuoteResponse where
  | ok (feeTier : Nat) (amountOut : JStr)
  | err (message : JStr)
deriving DecidableEq

/-- JavaScript falsiness of an optional string field (`!amountIn`):
absent or the empty string. -/
def jsFalsyStr : Option JStr → Bool
  | none => true
  | some [] => true
  | some (_ :: _) => false

namespace App

/-- The `app.post(routeQuote, …)` handler of `src/app.js`: reject a
request with a missing field as 400; then resolve both tokens, parse
the amount and run `getBestQuote`, turning any thrown error into a 500
with a JSON error object, and a success into a 200 with
`{feeTier, amountOut}`. -/
def quoteHandler (tokenMap : List (JStr × TokenInfo))
    (parseEther : JStr → Except JStr Nat)
    (q : JStr → JStr → Nat → Nat → Except JStr Nat)
    (formatUnits : Nat → JStr) (req : QuoteRequest) : Nat × QuoteResponse :=
  if jsFalsyStr req.amountIn || jsFalsyStr req.tokenIn || jsFalsyStr req.tokenOut then
    (400, .err (jcodes "Missing required parameters in request body"))
  else
    match findTokenAddress tokenMap (req.tokenIn.getD []) with
    | .error e => (500, .err e)
    | .ok tokenInAddress =>
      match findTokenAddress tokenMap (req.tokenOut.getD []) with
      | .error e => (500, .err e)
      | .ok tokenOutAddress =>
        match parseEther (req.amountIn.getD []) with
        | .error e => (500, .err e)
        | .ok amountInWei =>
          match getBestQuoteGo (q tokenInAddress tokenOutAddress amountInWei)
              (jcodes "No valid liquidity pool found.") feeTiers with
          | .error e => (500, .err e)
          | .ok (fee, amountOut) => (200, .ok fee (formatUnits amountOut))

end App

/-! ## The approve-then-swap flows

The remote calls are oracles; the flow functions return the ordered
list of on-chain interactions the script performs before it stops
(either normally or because an awaited call threw). -/

inductive SwapEvent where
  | balanceQuery
  | allowanceQuery
  | approveSubmit
  | approveConfirmed
  | quoteCall (fee : Nat)
  | swapSubmit
  | swapConfirmed
deriving DecidableEq

/-- Shared tail of both flows, from the quote lookup onwards: the quote
calls, then (on success) the swap submission and its confirmation. -/
def quoteThenSwapTrace (q : Nat → Except JStr Nat)
    (swapSend swapWait : Except JStr Unit) : List SwapEvent :=
  (quoterCallsGo q feeTiers).map SwapEvent.quoteCall ++
    match getBestQuoteGo q [] feeTiers with
    | .error _ => []
    | .ok _ =>
      SwapEvent.swapSubmit ::
        match swapSend with
        | .error _ => []
        | .ok _ =>
          match swapWait with
          | .error _ => []
          | .ok _ => [SwapEvent.swapConfirmed]

namespace DSwap

/-- The on-chain interaction trace of `main()` in
`src/d_swap_from_mapping.js`, after token resolution: read the balance
(abort when insufficient), read the allowance, and when it is
insufficient submit an approval and await its confirmation before
quoting and swapping. -/
def mainTrace (balance allowance amountInWei : Nat)
    (approveWait : Except JStr Unit) (q : Nat → Except JStr Nat)
    (swapSend swapWait : Except JStr Unit) : List SwapEvent :=
  SwapEvent.balanceQuery ::
    if balance < amountInWei then []
    else
      SwapEvent.allowanceQuery ::
        if allowance < amountInWei then
          SwapEvent.approveSubmit ::
            match approveWait with
            | .error _ => []
            | .ok _ =>
              SwapEvent.approveConfirmed :: quoteThenSwapTrace q swapSend swapWait
        else
          quoteThenSwapTrace q swapSend swapWait

end DSwap

namespace App

/-- The on-chain interaction trace of the `app.post(routeSwap, …)`
handler of `src/app.js` after validation: for an ERC-20 input token
(`isEth = false`) check balance and allowance, approving first when the
allowance is insufficient; for `eth` skip straight to the quote. -/
def swapTrace (isEth : Bool) (balance allowance amountInWei : Nat)
    (approveWait : Except JStr Unit) (q : Nat → Except JStr Nat)
    (swapSend swapWait : Except JStr Unit) : List SwapEvent :=
  if isEth then quoteThenSwapTrace q swapSend swapWait
  else
    SwapEvent.balanceQuery ::
      if balance < amountInWei then []
      else
        SwapEvent.allowanceQuery ::
          if allowance < amountInWei then
            SwapEvent.approveSubmit ::
              match approveWait with
              | .error _ => []
              | .ok _ =>
                SwapEvent.approveConfirmed :: quoteThenSwapTrace q swapSend swapWait
          else
            quoteThenSwapTrace q swapSend swapWait

end App

/-! ## Oracle and request fixtures used by witnesses and counterexamples -/

/-- A quoter oracle for which only tier 3000 succeeds. -/
def qOnly3000 : Nat → Except JStr Nat := fun fee =>
  if fee == 3000 then .ok 999 else .error (jcodes "execution reverted")

/-- A quoter oracle that fails on every tier. -/
def qAllFail : Nat → Except JStr Nat := fun _ => .error (jcodes "execution reverted")

/-- A one-entry token mapping fixture. -/
def fixtureTokenMap : List (JStr × TokenInfo) :=
  [(jcodes "0x6B175474E89094C44Da98b954EedeAC495271d0F",
    ⟨jcodes "Dai Stablecoin", jcodes "DAI"⟩)]

def fixtureParseEther : JStr → Except JStr Nat := fun _ => .ok 1000000000000000000

def fixtureQuoter : JStr → JStr → Nat → Nat → Except JStr Nat :=
  fun _ _ _ _ => .error (jcodes "execution reverted")

def fixtureFormatUnits : Nat → JStr := fun _ => jcodes "1.0"

/-- A request whose `tokenIn` is present but resolves to no mapping
entry — a malformed-address validation failure. -/
def fixtureBadTokenReq : QuoteRequest :=
  ⟨some (jcodes "1"), some (jcodes "zzz"), some (jcodes "dai")⟩

/-! ## Theorems

First, validation vectors for the embedded keccak-256 and checksum
encoding (the known digests of the empty message and of `abc`, and the
EIP-55 checksum of the WETH mainnet address). -/

theorem keccak256_empty_vector : keccak256 [] =
    [197, 210, 70, 1, 134, 247, 35, 60, 146, 126, 125, 178, 220, 199, 3, 192,
     229, 0, 182, 83, 202, 130, 39, 59, 123, 250, 216, 4, 93, 133, 164, 112] := by
  decide

theorem keccak256_abc_vector : keccak256 [97, 98, 99] =
    [78, 3, 101, 122, 234, 69, 169, 79, 199, 212, 123, 168, 38, 200, 214, 103,
     192, 209, 230, 227, 58, 100, 160, 54, 236, 68, 245, 143, 161, 45, 108, 69] := by
  decide

theorem getAddress_weth_vector :
    getAddress (jcodes "0xc02aaa39b223fe8d0a0e5c4f27ead9083c756cc2") =
      .ok (jcodes "0xC02aaA39b223FE8D0A0e5C4F27eAD9083C756Cc2") := by
  decide

theorem getBestQuoteGo_first_success_aux (q : Nat → Except JStr Nat) (errMsg : JStr)
    (f : Nat) (post : List Nat) (out : Nat) (hf : q f = .ok out) :
    ∀ pre : List Nat, (∀ g ∈ pre, (q g).isOk = false) →
      getBestQuoteGo q errMsg (pre ++ f :: post) = .ok (f, out) ∧
        quoterCallsGo q (pre ++ f :: post) = pre ++ [f] := by
  intro pre
  induction pre with
  | nil => intro _; simp [getBestQuoteGo, quoterCallsGo, hf]
  | cons g gs ih =>
    intro hpre
    have hg := hpre g (List.mem_cons_self g gs)
    have ihr := ih (fun x hx => hpre x (List.mem_cons_of_mem g hx))
    cases hqg : q g with
    | ok v => rw [hqg] at hg; simp [Except.isOk, Except.toBool] at hg
    | error e =>
      constructor
      · simpa [getBestQuoteGo, hqg] using ihr.1
      · simpa [quoterCallsGo, hqg] using ihr.2

/-- C4: first-success quote selection — for every quoter oracle,
final error message, and ordered tier list that splits as
`pre ++ f :: post` with every tier of `pre` failing and `f` succeeding
with output `out`, the loop returns `(f, out)` (the lowest-listed
succeeding tier with its quoted amount, no reordering by output), and
the tiers actually queried are exactly `pre ++ [f]` — no tier after the
first success is ever queried. -/
theorem getBestQuote_first_success (q : Nat → Except JStr Nat) (errMsg : JStr)
    (pre post : List Nat) (f out : Nat)
    (hpre : ∀ g ∈ pre, (q g).isOk = false) (hf : q f = .ok out) :
    getBestQuoteGo q errMsg (pre ++ f :: post) = .ok (f, out) ∧
      quoterCallsGo q (pre ++ f :: post) = pre ++ [f] :=
  getBestQuoteGo_first_success_aux q errMsg f post out hf pre hpre


/-- Witness for C4 at the spec example: tiers `[500, 3000, 10000]`
where only 3000 succeeds return `(3000, 999)` having queried exactly
`[500, 3000]`. -/
theorem getBestQuote_first_success_witness :
    getBestQuoteGo qOnly3000 (jcodes "No valid liquidity pool found.")
        ([500] ++ 3000 :: [10000]) = .ok (3000, 999) ∧
      quoterCallsGo qOnly3000 ([500] ++ 3000 :: [10000]) = [500] ++ [3000] :=
  getBestQuote_first_success qOnly3000 (jcodes "No valid liquidity pool found.")
    [500] [10000] 3000 999 (by decide) (by decide)

/-- C5: exhaustion — the loop returns the no-liquidity error exactly
when the quoter call fails on every tier of the list, and in that case
every tier was still tried (a per-tier failure never aborts the
remaining attempts). -/
theorem getBestQuote_exhaustion (q : Nat → Except JStr Nat) (errMsg : JStr)
    (tiers : List Nat) :
    (getBestQuoteGo q errMsg tiers = .error errMsg ↔
        ∀ f ∈ tiers, (q f).isOk = false) ∧
      ((∀ f ∈ tiers, (q f).isOk = false) → quoterCallsGo q tiers = tiers) := by
  induction tiers with
  | nil => simp [getBestQuoteGo, quoterCallsGo]
  | cons f fs ih =>
    cases hq : q f with
    | ok v =>
      refine ⟨⟨fun h => ?_, fun h => ?_⟩, fun h => ?_⟩
      · simp [getBestQuoteGo, hq] at h
      · have := h f (List.mem_cons_self f fs)
        rw [hq] at this
        simp [Except.isOk, Except.toBool] at this
      · have := h f (List.mem_cons_self f fs)
        rw [hq] at this
        simp [Except.isOk, Except.toBool] at this
    | error e =>
      have hfail : (q f).isOk = false := by
        rw [hq]; simp [Except.isOk, Except.toBool]
      refine ⟨⟨fun h => ?_, fun h => ?_⟩, fun h => ?_⟩
      · intro g hg
        rcases List.mem_cons.mp hg with rfl | hg
        · exact hfail
        · exact (ih.1.mp (by simpa [getBestQuoteGo, hq] using h)) g hg
      · simp only [getBestQuoteGo, hq]
        exact ih.1.mpr (fun g hg => h g (List.mem_cons_of_mem f hg))
      · simp only [quoterCallsGo, hq]
        rw [ih.2 (fun g hg => h g (List.mem_cons_of_mem f hg))]


/-- Witness for C5: with every tier failing the loop returns the
no-liquidity error, after having tried all three tiers. -/
theorem getBestQuote_exhaustion_witness :
    getBestQuoteGo qAllFail (jcodes "No valid liquidity pool found.") feeTiers =
        .error (jcodes "No valid liquidity pool found.") ∧
      quoterCallsGo qAllFail feeTiers = feeTiers :=
  ⟨(getBestQuote_exhaustion qAllFail (jcodes "No valid liquidity pool found.")
      feeTiers).1.mpr (by decide),
   (getBestQuote_exhaustion qAllFail (jcodes "No valid liquidity pool found.")
      feeTiers).2 (by decide)⟩

/-! ## Case-insensitivity of token resolution -/

theorem asciiLower_asciiLower (c : Nat) : asciiLower (asciiLower c) = asciiLower c := by
  unfold asciiLower
  split_ifs <;> omega

theorem toLowerCodes_toLowerCodes (l : JStr) :
    toLowerCodes (toLowerCodes l) = toLowerCodes l := by
  induction l with
  | nil => rfl
  | cons c cs ih =>
    simp only [toLowerCodes, List.map_cons] at ih ⊢
    rw [asciiLower_asciiLower]
    exact congrArg _ ih

/-- C10: case-insensitive token resolution — `findTokenAddress`
behaves the same on `s` and on `s.toLowerCase()`: on both inputs it
returns the address of the first mapping entry whose name or symbol
matches case-insensitively (characterised by `List.find?`), and on both
it fails when no entry matches; this holds for the `src/app.js` variant
and the `src/d_swap_from_mapping.js` variant alike. -/
theorem findTokenAddress_case_insensitive (tokenMap : List (JStr × TokenInfo)) (s : JStr) :
    (App.findTokenAddress tokenMap s).toOption =
        (App.findTokenAddress tokenMap (toLowerCodes s)).toOption ∧
      (App.findTokenAddress tokenMap s).toOption =
        (tokenMap.find? (fun e => entryMatches (toLowerCodes s) e.2)).map Prod.fst ∧
      (DSwap.findTokenAddress tokenMap s).toOption =
        (DSwap.findTokenAddress tokenMap (toLowerCodes s)).toOption := by
  unfold App.findTokenAddress DSwap.findTokenAddress
  rw [toLowerCodes_toLowerCodes]
  cases h : tokenMap.find? (fun e => entryMatches (toLowerCodes s) e.2) <;>
    simp [h, Except.toOption]

/-! ## Slippage bounds -/

theorem nat_mul_div_le_self (a k : Nat) (hk : k ≤ 100) : a * k / 100 ≤ a := by
  calc a * k / 100 ≤ a * 100 / 100 :=
        Nat.div_le_div_right (Nat.mul_le_mul_left a hk)
    _ = a := Nat.mul_div_cancel a (by norm_num)

theorem amountOutMinimum_half : ∀ amountOut m : Nat,
    amountOutMinimum amountOut (5 / 1000) ≠ some m := by
  intro amountOut m hm
  have hq : (100 : ℚ) - 5 / 1000 * 100 = 199 / 2 := by norm_num
  simp only [amountOutMinimum, hq] at hm
  have hden : ¬ (((199 : ℚ) / 2).den = 1 ∧ 0 ≤ ((199 : ℚ) / 2).num) := by
    rintro ⟨h1, -⟩
    have h2 := Rat.coe_int_num_of_den_eq_one h1
    have h3 : ((2 * ((199 : ℚ) / 2).num : ℤ) : ℚ) = ((199 : ℤ) : ℚ) := by
      push_cast
      rw [h2]
      ring
    have h4 : (2 * ((199 : ℚ) / 2).num) = 199 := by exact_mod_cast h3
    omega
  rw [if_neg hden] at hm
  cases hm

theorem amountOutMinimum_99 (amountOut : Nat) :
    amountOutMinimum amountOut (1 / 100) = some (amountOut * 99 / 100) := by
  have hq : (100 : ℚ) - 1 / 100 * 100 = 99 := by norm_num
  simp only [amountOutMinimum, hq]
  rw [if_pos ⟨rfl, by decide⟩]
  rfl

theorem amountOutMinimum_97 (amountOut : Nat) :
    amountOutMinimum amountOut (3 / 100) = some (amountOut * 97 / 100) := by
  have hq : (100 : ℚ) - 3 / 100 * 100 = 97 := by norm_num
  simp only [amountOutMinimum, hq]
  rw [if_pos ⟨rfl, by decide⟩]
  rfl

/-- C9: slippage bounds — `calculateSlippage` returns exactly one of
`0.005`, `0.01`, `0.03`, hence always lies between `BASE_SLIPPAGE` and
`MAX_SLIPPAGE` inclusive; and whenever the derived
`amountOutMinimum = amountOut * (100 - slippage*100) / 100` computation
produces a value, that value does not exceed the quoted `amountOut`
(for slippage `0.005` the multiplier `99.5` is not an integer, so the
`BigNumber` computation throws instead of producing a value). -/
theorem calculateSlippage_bounds (tokenIn tokenOut : JStr) :
    (calculateSlippage tokenIn tokenOut = 5 / 1000 ∨
      calculateSlippage tokenIn tokenOut = 1 / 100 ∨
      calculateSlippage tokenIn tokenOut = 3 / 100) ∧
    BASE_SLIPPAGE ≤ calculateSlippage tokenIn tokenOut ∧
    calculateSlippage tokenIn tokenOut ≤ MAX_SLIPPAGE ∧
    (∀ amountOut m,
      amountOutMinimum amountOut (calculateSlippage tokenIn tokenOut) = some m →
        m ≤ amountOut) := by
  have hbase : BASE_SLIPPAGE = 5 / 1000 := rfl
  have hmax : MAX_SLIPPAGE = 3 / 100 := rfl
  have hmin : min (BASE_SLIPPAGE * 2) MAX_SLIPPAGE = 1 / 100 := by
    rw [hbase, hmax, min_eq_left (by norm_num)]
    norm_num
  unfold calculateSlippage
  split_ifs with h1 h2
  · rw [hbase]
    refine ⟨Or.inl rfl, le_refl _, by norm_num [hmax], ?_⟩
    intro amountOut m hm
    exact absurd hm (amountOutMinimum_half amountOut m)
  · rw [hmin]
    refine ⟨Or.inr (Or.inl rfl), by norm_num [hbase], by norm_num [hmax], ?_⟩
    intro amountOut m hm
    rw [amountOutMinimum_99] at hm
    obtain rfl : amountOut * 99 / 100 = m := Option.some_injective _ hm
    exact nat_mul_div_le_self amountOut 99 (by norm_num)
  · rw [hmax]
    refine ⟨Or.inr (Or.inr rfl), by norm_num [hbase], le_refl _, ?_⟩
    intro amountOut m hm
    rw [amountOutMinimum_97] at hm
    obtain rfl : amountOut * 97 / 100 = m := Option.some_injective _ hm
    exact nat_mul_div_le_self amountOut 97 (by norm_num)

/-- Witness for C9: for the pair `(weth, dai)` the slippage is
`0.01`, the derived minimum for a quote of 1000 is 990, and indeed
990 ≤ 1000. -/
theorem calculateSlippage_bounds_witness :
    amountOutMinimum 1000 (calculateSlippage (jcodes "weth") (jcodes "dai")) =
        some 990 ∧ 990 ≤ 1000 := by
  have hcs : calculateSlippage (jcodes "weth") (jcodes "dai") = 1 / 100 := by
    unfold calculateSlippage
    rw [if_neg (by decide), if_pos (by decide)]
    rw [show BASE_SLIPPAGE = 5 / 1000 from rfl, show MAX_SLIPPAGE = 3 / 100 from rfl,
      min_eq_left (by norm_num)]
    norm_num
  have h990 : amountOutMinimum 1000 (calculateSlippage (jcodes "weth") (jcodes "dai")) =
      some 990 := by
    rw [hcs, amountOutMinimum_99]
  exact ⟨h990,
    (calculateSlippage_bounds (jcodes "weth") (jcodes "dai")).2.2.2 1000 990 h990⟩

/-! ## HTTP status mapping of the quote handler -/


/-- Counterexample to C7 as stated: a validation failure of the
token identifier (`tokenIn = "zzz"`, not in the mapping) is surfaced
with HTTP status 500, a server error, not a client error 4xx. -/
theorem quoteHandler_bad_token_is_500 :
    App.quoteHandler fixtureTokenMap fixtureParseEther fixtureQuoter fixtureFormatUnits
        fixtureBadTokenReq =
      (500, QuoteResponse.err (jcodes "Token not found: " ++ jcodes "zzz")) ∧
    499 < (App.quoteHandler fixtureTokenMap fixtureParseEther fixtureQuoter fixtureFormatUnits
        fixtureBadTokenReq).1 := by
  constructor
  · decide
  · decide

/-- C7 (amended): for every `POST /quote` request, the status is one
of 200, 400, 500; it is 400 exactly when a required body field is
missing or empty; a 200 response carries `{feeTier, amountOut}` and any
other status carries a JSON error object; a failure to resolve the
input token (malformed address) is surfaced as 500 with that error
message — not as a 4xx client error — and the fee-tier-exhaustion
error is likewise surfaced as 500. -/
theorem quoteHandler_status_mapping (tokenMap : List (JStr × TokenInfo))
    (parseEther : JStr → Except JStr Nat)
    (q : JStr → JStr → Nat → Nat → Except JStr Nat)
    (formatUnits : Nat → JStr) (req : QuoteRequest) :
    ((App.quoteHandler tokenMap parseEther q formatUnits req).1 = 200 ∨
      (App.quoteHandler tokenMap parseEther q formatUnits req).1 = 400 ∨
      (App.quoteHandler tokenMap parseEther q formatUnits req).1 = 500) ∧
    ((App.quoteHandler tokenMap parseEther q formatUnits req).1 = 400 ↔
      (jsFalsyStr req.amountIn || jsFalsyStr req.tokenIn || jsFalsyStr req.tokenOut) = true) ∧
    ((App.quoteHandler tokenMap parseEther q formatUnits req).1 = 200 →
      ∃ fee out, (App.quoteHandler tokenMap parseEther q formatUnits req).2 =
        QuoteResponse.ok fee out) ∧
    ((App.quoteHandler tokenMap parseEther q formatUnits req).1 ≠ 200 →
      ∃ msg, (App.quoteHandler tokenMap parseEther q formatUnits req).2 =
        QuoteResponse.err msg) ∧
    (∀ e, (jsFalsyStr req.amountIn || jsFalsyStr req.tokenIn || jsFalsyStr req.tokenOut) = false →
      App.findTokenAddress tokenMap (req.tokenIn.getD []) = .error e →
      App.quoteHandler tokenMap parseEther q formatUnits req = (500, QuoteResponse.err e)) ∧
    ((App.quoteHandler tokenMap parseEther q formatUnits req).2 =
        QuoteResponse.err (jcodes "No valid liquidity pool found.") →
      (App.quoteHandler tokenMap parseEther q formatUnits req).1 = 500) := by
  by_cases hf : (jsFalsyStr req.amountIn || jsFalsyStr req.tokenIn || jsFalsyStr req.tokenOut) = true
  · have hr : App.quoteHandler tokenMap parseEther q formatUnits req =
        (400, QuoteResponse.err (jcodes "Missing required parameters in request body")) := by
      unfold App.quoteHandler
      rw [if_pos hf]
    rw [hr]
    refine ⟨Or.inr (Or.inl rfl), ⟨fun _ => hf, fun _ => rfl⟩, ?_, ?_, ?_, ?_⟩
    · intro h
      simp at h
    · intro _
      exact ⟨_, rfl⟩
    · intro x hff _
      rw [hff] at hf
      simp at hf
    · intro hmsg
      exact absurd (QuoteResponse.err.inj hmsg) (by decide)
  · rw [Bool.not_eq_true] at hf
    cases h1 : App.findTokenAddress tokenMap (req.tokenIn.getD []) with
    | error e =>
      have hr : App.quoteHandler tokenMap parseEther q formatUnits req =
          (500, QuoteResponse.err e) := by
        unfold App.quoteHandler
        rw [hf]
        simp only [Bool.false_eq_true, if_false, h1]
      rw [hr]
      refine ⟨Or.inr (Or.inr rfl), ⟨fun h => by simp at h, fun h => by rw [h] at hf; simp at hf⟩,
        ?_, ?_, ?_, ?_⟩
      · intro h
        simp at h
      · intro _
        exact ⟨_, rfl⟩
      · intro x _ hx
        rw [Except.error.inj hx]
      · intro _
        rfl
    | ok tokenInAddress =>
      cases h2 : App.findTokenAddress tokenMap (req.tokenOut.getD []) with
      | error e =>
        have hr : App.quoteHandler tokenMap parseEther q formatUnits req =
            (500, QuoteResponse.err e) := by
          unfold App.quoteHandler
          rw [hf]
          simp only [Bool.false_eq_true, if_false, h1, h2]
        rw [hr]
        refine ⟨Or.inr (Or.inr rfl), ⟨fun h => by simp at h, fun h => by rw [h] at hf; simp at hf⟩,
          ?_, ?_, ?_, ?_⟩
        · intro h
          simp at h
        · intro _
          exact ⟨_, rfl⟩
        · intro x _ hx
          exact Except.noConfusion hx
        · intro _
          rfl
      | ok tokenOutAddress =>
        cases h3 : parseEther (req.amountIn.getD []) with
        | error e =>
          have hr : App.quoteHandler tokenMap parseEther q formatUnits req =
              (500, QuoteResponse.err e) := by
            unfold App.quoteHandler
            rw [hf]
            simp only [Bool.false_eq_true, if_false, h1, h2, h3]
          rw [hr]
          refine ⟨Or.inr (Or.inr rfl),
            ⟨fun h => by simp at h, fun h => by rw [h] at hf; simp at hf⟩, ?_, ?_, ?_, ?_⟩
          · intro h
            simp at h
          · intro _
            exact ⟨_, rfl⟩
          · intro x _ hx
            exact Except.noConfusion hx
          · intro _
            rfl
        | ok amountInWei =>
          cases h4 : getBestQuoteGo (q tokenInAddress tokenOutAddress amountInWei)
              (jcodes "No valid liquidity pool found.") feeTiers with
          | error e =>
            have hr : App.quoteHandler tokenMap parseEther q formatUnits req =
                (500, QuoteResponse.err e) := by
              unfold App.quoteHandler
              rw [hf]
              simp only [Bool.false_eq_true, if_false, h1, h2, h3, h4]
            rw [hr]
            refine ⟨Or.inr (Or.inr rfl),
              ⟨fun h => by simp at h, fun h => by rw [h] at hf; simp at hf⟩, ?_, ?_, ?_, ?_⟩
            · intro h
              simp at h
            · intro _
              exact ⟨_, rfl⟩
            · intro x _ hx
              exact Except.noConfusion hx
            · intro _
              rfl
          | ok p =>
            obtain ⟨fee, amountOut⟩ := p
            have hr : App.quoteHandler tokenMap parseEther q formatUnits req =
                (200, QuoteResponse.ok fee (formatUnits amountOut)) := by
              unfold App.quoteHandler
              rw [hf]
              simp only [Bool.false_eq_true, if_false, h1, h2, h3, h4]
            rw [hr]
            refine ⟨Or.inl rfl, ⟨fun h => by simp at h, fun h => by rw [h] at hf; simp at hf⟩,
              ?_, ?_, ?_, ?_⟩
            · intro _
              exact ⟨fee, formatUnits amountOut, rfl⟩
            · intro h
              exact absurd rfl h
            · intro x _ hx
              exact Except.noConfusion hx
            · intro hmsg
              exact QuoteResponse.noConfusion hmsg

/-- Witness for C7 (amended), at a request with a missing
`amountIn`: the 400-iff conjunct yields status 400. -/
theorem quoteHandler_status_mapping_witness :
    (App.quoteHandler fixtureTokenMap fixtureParseEther fixtureQuoter fixtureFormatUnits
        ⟨none, some (jcodes "dai"), some (jcodes "dai")⟩).1 = 400 :=
  (quoteHandler_status_mapping fixtureTokenMap fixtureParseEther fixtureQuoter
      fixtureFormatUnits ⟨none, some (jcodes "dai"), some (jcodes "dai")⟩).2.1.mpr (by decide)

/-! ## Approval strictly before swap -/

theorem swapSubmit_not_quoteCall (calls : List Nat) :
    SwapEvent.swapSubmit ∉ calls.map SwapEvent.quoteCall := by
  intro h
  obtain ⟨f, -, hf⟩ := List.mem_map.mp h
  cases hf

theorem mainTrace_approve_before_swap (balance allowance amountInWei : Nat)
    (approveWait : Except JStr Unit) (q : Nat → Except JStr Nat)
    (swapSend swapWait : Except JStr Unit) (hall : allowance < amountInWei) :
    SwapEvent.swapSubmit ∈
        DSwap.mainTrace balance allowance amountInWei approveWait q swapSend swapWait →
      ∃ l1 l2 l3,
        DSwap.mainTrace balance allowance amountInWei approveWait q swapSend swapWait =
            l1 ++ (SwapEvent.approveSubmit :: (l2 ++ (SwapEvent.swapSubmit :: l3))) ∧
          SwapEvent.approveConfirmed ∈ l2 := by
  unfold DSwap.mainTrace
  by_cases hb : balance < amountInWei
  · simp only [hb, if_true]
    intro hmem
    rcases List.mem_cons.mp hmem with h | h
    · exact absurd h (by decide)
    · simp at h
  · simp only [hb, if_false, hall, if_true]
    cases approveWait with
    | error e =>
      intro hmem
      dsimp only at hmem
      rcases List.mem_cons.mp hmem with h | h
      · exact absurd h (by decide)
      rcases List.mem_cons.mp h with h | h
      · exact absurd h (by decide)
      rcases List.mem_cons.mp h with h | h
      · exact absurd h (by decide)
      · simp at h
    | ok u =>
      unfold quoteThenSwapTrace
      cases hqr : getBestQuoteGo q [] feeTiers with
      | error e =>
        intro hmem
        dsimp only at hmem
        rw [List.append_nil] at hmem
        rcases List.mem_cons.mp hmem with h | h
        · exact absurd h (by decide)
        rcases List.mem_cons.mp h with h | h
        · exact absurd h (by decide)
        rcases List.mem_cons.mp h with h | h
        · exact absurd h (by decide)
        rcases List.mem_cons.mp h with h | h
        · exact absurd h (by decide)
        exact absurd h (swapSubmit_not_quoteCall _)
      | ok p =>
        intro _
        cases swapSend with
        | error e2 =>
          exact ⟨[SwapEvent.balanceQuery, SwapEvent.allowanceQuery],
            SwapEvent.approveConfirmed :: (quoterCallsGo q feeTiers).map SwapEvent.quoteCall,
            [], by dsimp only; simp, List.mem_cons_self _ _⟩
        | ok u2 =>
          cases swapWait with
          | error e3 =>
            exact ⟨[SwapEvent.balanceQuery, SwapEvent.allowanceQuery],
              SwapEvent.approveConfirmed :: (quoterCallsGo q feeTiers).map SwapEvent.quoteCall,
              [], by dsimp only; simp, List.mem_cons_self _ _⟩
          | ok u3 =>
            exact ⟨[SwapEvent.balanceQuery, SwapEvent.allowanceQuery],
              SwapEvent.approveConfirmed :: (quoterCallsGo q feeTiers).map SwapEvent.quoteCall,
              [SwapEvent.swapConfirmed], by dsimp only; simp, List.mem_cons_self _ _⟩

/-- C8: approval strictly before swap — in both the
`src/d_swap_from_mapping.js` `main()` flow and the ERC-20 branch of the
`src/app.js` swap handler, whenever the allowance is insufficient and a
swap transaction is eventually submitted, the trace splits as
`l1 ++ approveSubmit :: l2 ++ swapSubmit :: l3` with the approval
confirmation inside `l2`: the approval is submitted and its
confirmation awaited strictly before the swap is sent. -/
theorem approval_confirmed_before_swap (balance allowance amountInWei : Nat)
    (approveWait : Except JStr Unit) (q : Nat → Except JStr Nat)
    (swapSend swapWait : Except JStr Unit) (hall : allowance < amountInWei) :
    (SwapEvent.swapSubmit ∈
        DSwap.mainTrace balance allowance amountInWei approveWait q swapSend swapWait →
      ∃ l1 l2 l3,
        DSwap.mainTrace balance allowance amountInWei approveWait q swapSend swapWait =
            l1 ++ (SwapEvent.approveSubmit :: (l2 ++ (SwapEvent.swapSubmit :: l3))) ∧
          SwapEvent.approveConfirmed ∈ l2) ∧
    (SwapEvent.swapSubmit ∈
        App.swapTrace false balance allowance amountInWei approveWait q swapSend swapWait →
      ∃ l1 l2 l3,
        App.swapTrace false balance allowance amountInWei approveWait q swapSend swapWait =
            l1 ++ (SwapEvent.approveSubmit :: (l2 ++ (SwapEvent.swapSubmit :: l3))) ∧
          SwapEvent.approveConfirmed ∈ l2) :=
  ⟨mainTrace_approve_before_swap balance allowance amountInWei approveWait q
      swapSend swapWait hall,
   fun hmem =>
    mainTrace_approve_before_swap balance allowance amountInWei approveWait q
      swapSend swapWait hall hmem⟩

/-- Witness for C8 at a concrete flow (balance 10, allowance 0,
amount 5, every remote call succeeding, tier 500 quoting 7). -/
theorem approval_confirmed_before_swap_witness :
    ∃ l1 l2 l3,
      DSwap.mainTrace 10 0 5 (.ok ()) (fun _ => .ok 7) (.ok ()) (.ok ()) =
          l1 ++ (SwapEvent.approveSubmit :: (l2 ++ (SwapEvent.swapSubmit :: l3))) ∧
        SwapEvent.approveConfirmed ∈ l2 :=
  (approval_confirmed_before_swap 10 0 5 (.ok ()) (fun _ => .ok 7) (.ok ()) (.ok ())
      (by decide)).1 (by decide)

/-! ## String-ordering lemmas -/

theorem strLt_asymm (a : JStr) : ∀ b, strLt a b = true → strLt b a = false := by
  induction a with
  | nil =>
    intro b hb
    cases b with
    | nil => simp [strLt] at hb
    | cons d ds => simp [strLt]
  | cons c cs ih =>
    intro b hb
    cases b with
    | nil => simp [strLt] at hb
    | cons d ds =>
      rcases Nat.lt_trichotomy c d with h | h | h
      · simp [strLt, h, Nat.lt_asymm h]
      · subst h
        simp only [strLt, Nat.lt_irrefl, if_false] at hb ⊢
        exact ih ds hb
      · simp [strLt, h, Nat.lt_asymm h] at hb

theorem strLt_conn (a : JStr) : ∀ b, strLt a b = false → strLt b a = false → a = b := by
  induction a with
  | nil =>
    intro b h1 _
    cases b with
    | nil => rfl
    | cons d ds => simp [strLt] at h1
  | cons c cs ih =>
    intro b h1 h2
    cases b with
    | nil => simp [strLt] at h2
    | cons d ds =>
      rcases Nat.lt_trichotomy c d with h | h | h
      · simp [strLt, h] at h1
      · subst h
        simp only [strLt, Nat.lt_irrefl, if_false] at h1 h2
        rw [ih ds h1 h2]
      · simp [strLt, h] at h2

/-! ## Length and membership lemmas for the hex machinery -/

theorem bytesOfLane_length (fuel : Nat) : ∀ x, (bytesOfLane fuel x).length = fuel := by
  induction fuel with
  | zero => intro x; rfl
  | succ n ih => intro x; simp [bytesOfLane, ih]

theorem bytesOfLane_lt (fuel : Nat) : ∀ x, ∀ y ∈ bytesOfLane fuel x, y < 256 := by
  induction fuel with
  | zero => intro x y hy; simp [bytesOfLane] at hy
  | succ n ih =>
    intro x y hy
    rcases List.mem_cons.mp hy with rfl | hy
    · exact Nat.mod_lt x (by norm_num)
    · exact ih (x / 256) y hy

theorem keccak256_length (msg : List Nat) : (keccak256 msg).length = 32 := by
  unfold keccak256
  simp [List.length_append, bytesOfLane_length]

theorem keccak256_lt (msg : List Nat) : ∀ b ∈ keccak256 msg, b < 256 := by
  unfold keccak256
  intro b hb
  simp only [List.mem_append] at hb
  rcases hb with ((h | h) | h) | h <;> exact bytesOfLane_lt 8 _ b h

theorem nibbles_length (bs : List Nat) :
    ((bs.map (fun b => [b / 16, b % 16])).flatten).length = 2 * bs.length := by
  induction bs with
  | nil => rfl
  | cons b t ih => simp [ih]; omega

theorem hexDigitCode_isLower {d : Nat} (hd : d < 16) :
    isLowerHexCode (hexDigitCode d) = true := by
  unfold hexDigitCode isLowerHexCode isDigitCode isLowerHexLetter
  split_ifs with h <;>
    simp only [Bool.or_eq_true, Bool.and_eq_true, decide_eq_true_eq] <;> omega

theorem hexRev_mem (fuel : Nat) : ∀ v, ∀ c ∈ hexRev fuel v, isLowerHexCode c = true := by
  induction fuel with
  | zero => intro v c hc; simp [hexRev] at hc
  | succ n ih =>
    intro v c hc
    rcases List.mem_cons.mp hc with rfl | hc
    · exact hexDigitCode_isLower (Nat.mod_lt v (by norm_num))
    · exact ih (v / 16) c hc

theorem hexRev_length (fuel : Nat) : ∀ v, (hexRev fuel v).length = fuel := by
  induction fuel with
  | zero => intro v; rfl
  | succ n ih => intro v; simp [hexRev, ih]

theorem hexChars_length (w v : Nat) : (hexChars w v).length = w := by
  simp [hexChars, hexRev_length]

theorem hexChars_mem (w v : Nat) : ∀ c ∈ hexChars w v, isLowerHexCode c = true := by
  intro c hc
  exact hexRev_mem w v c (List.mem_reverse.mp hc)

theorem hexOfBytes_cons (b : Nat) (t : List Nat) :
    hexOfBytes (b :: t) =
      hexDigitCode (b / 16) :: hexDigitCode (b % 16) :: hexOfBytes t := rfl

theorem hexOfBytes_length (l : List Nat) : (hexOfBytes l).length = 2 * l.length := by
  induction l with
  | nil => rfl
  | cons b t ih => rw [hexOfBytes_cons]; simp [ih]; omega

theorem hexOfBytes_mem (l : List Nat) (hl : ∀ b ∈ l, b < 256) :
    ∀ c ∈ hexOfBytes l, isLowerHexCode c = true := by
  induction l with
  | nil => intro c hc; simp [hexOfBytes] at hc
  | cons b t ih =>
    intro c hc
    rw [hexOfBytes_cons] at hc
    have hb := hl b (List.mem_cons_self b t)
    rcases List.mem_cons.mp hc with rfl | hc
    · exact hexDigitCode_isLower (by omega)
    rcases List.mem_cons.mp hc with rfl | hc
    · exact hexDigitCode_isLower (Nat.mod_lt b (by norm_num))
    · exact ih (fun x hx => hl x (List.mem_cons_of_mem b hx)) c hc

theorem hexOfBytes_drop (k : Nat) : ∀ l : List Nat,
    (hexOfBytes l).drop (2 * k) = hexOfBytes (l.drop k) := by
  induction k with
  | zero => intro l; simp
  | succ n ih =>
    intro l
    cases l with
    | nil => simp [hexOfBytes]
    | cons b t =>
      rw [hexOfBytes_cons]
      have h2 : 2 * (n + 1) = 2 * n + 1 + 1 := by omega
      rw [h2, List.drop_succ_cons, List.drop_succ_cons, List.drop_succ_cons]
      exact ih t

/-! ## Checksum-encoding lemmas -/

theorem isHexCode_asciiLower {c : Nat} (h : isHexCode c = true) :
    isLowerHexCode (asciiLower c) = true := by
  unfold isHexCode isDigitCode isLowerHexLetter isUpperHexLetter at h
  unfold isLowerHexCode isDigitCode isLowerHexLetter asciiLower
  simp only [Bool.or_eq_true, Bool.and_eq_true, decide_eq_true_eq] at h ⊢
  split_ifs with hif <;> omega

theorem isLowerHexCode_isHexCode {c : Nat} (h : isLowerHexCode c = true) :
    isHexCode c = true := by
  unfold isLowerHexCode at h
  unfold isHexCode
  simp only [Bool.or_eq_true] at h ⊢
  tauto

theorem asciiLower_fix {c : Nat} (h : isLowerHexCode c = true) : asciiLower c = c := by
  unfold isLowerHexCode isDigitCode isLowerHexLetter at h
  unfold asciiLower
  simp only [Bool.or_eq_true, Bool.and_eq_true, decide_eq_true_eq] at h
  split_ifs with hif <;> omega

theorem asciiLower_asciiUpper_fix {c : Nat} (h : isLowerHexCode c = true) :
    asciiLower (asciiUpper c) = c := by
  unfold isLowerHexCode isDigitCode isLowerHexLetter at h
  unfold asciiUpper asciiLower
  simp only [Bool.or_eq_true, Bool.and_eq_true, decide_eq_true_eq] at h
  split_ifs with h1 h2 <;> omega

theorem map_asciiLower_zipWith (l : List Nat) : ∀ ns : List Nat,
    (∀ c ∈ l, isLowerHexCode c = true) → l.length ≤ ns.length →
    (List.zipWith (fun c n => if 8 ≤ n then asciiUpper c else c) l ns).map asciiLower = l := by
  induction l with
  | nil => intro ns _ _; simp
  | cons c cs ih =>
    intro ns hmem hlen
    cases ns with
    | nil => simp at hlen
    | cons n ns2 =>
      have hc := hmem c (List.mem_cons_self c cs)
      simp only [List.zipWith_cons_cons, List.map_cons]
      rw [ih ns2 (fun x hx => hmem x (List.mem_cons_of_mem c hx)) (by simpa using hlen)]
      congr 1
      split_ifs with h8
      · exact asciiLower_asciiUpper_fix hc
      · exact asciiLower_fix hc

theorem toLowerCodes_checksumCodes (d : JStr) (hmem : ∀ c ∈ d, isHexCode c = true)
    (hlen : d.length = 40) :
    toLowerCodes (checksumCodes d) = toLowerCodes d := by
  simp only [checksumCodes, toLowerCodes]
  apply map_asciiLower_zipWith
  · intro c hc
    obtain ⟨x, hx, rfl⟩ := List.mem_map.mp hc
    exact isHexCode_asciiLower (hmem x hx)
  · rw [nibbles_length, keccak256_length]
    simp [hlen]

theorem checksumCodes_of_lower (d : JStr) :
    checksumCodes (toLowerCodes d) = checksumCodes d := by
  unfold checksumCodes
  rw [toLowerCodes_toLowerCodes]

/-! ## `getAddress` lemmas -/

theorem getAddress_ok_form {s r : JStr} (h : getAddress s = .ok r) :
    ∃ d, r = 48 :: 120 :: checksumCodes d ∧ (∀ c ∈ d, isHexCode c = true) ∧
      d.length = 40 := by
  unfold getAddress at h
  by_cases h1 : isHexAddrStr s = true
  · rw [if_pos h1] at h
    by_cases h2 : (hasMixedCase (stripHexMarker s) &&
        (48 :: 120 :: checksumCodes (stripHexMarker s) ≠ 48 :: 120 :: stripHexMarker s)) = true
    · rw [if_pos h2] at h
      exact absurd h (by simp)
    · rw [if_neg h2] at h
      refine ⟨stripHexMarker s, (Except.ok.inj h).symm, ?_, ?_⟩
      · unfold isHexAddrStr at h1
        simp only [Bool.and_eq_true, List.all_eq_true] at h1
        exact h1.2
      · unfold isHexAddrStr at h1
        simp only [Bool.and_eq_true, beq_iff_eq] at h1
        exact h1.1
  · rw [if_neg h1] at h
    by_cases h3 : isIcapAddrStr s = true
    · rw [if_pos h3] at h
      by_cases h4 : ibanOk s = true
      · rw [if_pos h4] at h
        by_cases h5 : base36Val (s.drop 4) < TWO_POW_160
        · rw [if_pos h5] at h
          refine ⟨hexChars 40 (base36Val (s.drop 4)), (Except.ok.inj h).symm, ?_,
            hexChars_length _ _⟩
          intro c hc
          exact isLowerHexCode_isHexCode (hexChars_mem _ _ c hc)
        · rw [if_neg h5] at h
          exact absurd h (by simp)
      · rw [if_neg h4] at h
        exact absurd h (by simp)
    · rw [if_neg h3] at h
      exact absurd h (by simp)

theorem getAddress_lower40 (l : JStr) (hmem : ∀ c ∈ l, isLowerHexCode c = true)
    (hlen : l.length = 40) :
    getAddress (48 :: 120 :: l) = .ok (48 :: 120 :: checksumCodes l) := by
  have hstrip : stripHexMarker (48 :: 120 :: l) = l := rfl
  have hhex : isHexAddrStr (48 :: 120 :: l) = true := by
    unfold isHexAddrStr
    rw [hstrip]
    simp only [Bool.and_eq_true, beq_iff_eq, List.all_eq_true]
    exact ⟨hlen, fun c hc => isLowerHexCode_isHexCode (hmem c hc)⟩
  have hmix : hasMixedCase l = false := by
    unfold hasMixedCase
    have hany : l.any isUpperHexLetter = false := by
      rw [List.any_eq_false]
      intro c hc
      have hlc := hmem c hc
      unfold isLowerHexCode isDigitCode isLowerHexLetter at hlc
      unfold isUpperHexLetter
      simp only [Bool.or_eq_true, Bool.and_eq_true, decide_eq_true_eq] at hlc ⊢
      omega
    simp [hany]
  unfold getAddress
  simp only [hstrip, hhex, if_true, hmix, Bool.false_and, Bool.false_eq_true, if_false]

theorem except_bind_ok {ε α β : Type} (a : α) (f : α → Except ε β) :
    (Except.ok a : Except ε α) >>= f = f a := rfl

theorem except_bind_error {ε α β : Type} (e : ε) (f : α → Except ε β) :
    (Except.error e : Except ε α) >>= f = .error e := rfl

/-- Applying `getAddress` to the `0x`-prefixed last-40-hex-digit slice of a
32-byte hash succeeds and returns the checksummed low 20 bytes. -/
theorem getAddress_slice_ok (hsh : List Nat) (hlen : hsh.length = 32)
    (hmem : ∀ x ∈ hsh, x < 256) :
    getAddress (48 :: 120 :: sliceLast40 (hexOfBytes hsh)) =
      .ok (48 :: 120 :: checksumCodes (hexOfBytes (hsh.drop 12))) := by
  have hlen2 : (hexOfBytes hsh).length = 64 := by rw [hexOfBytes_length, hlen]
  have hslice : sliceLast40 (hexOfBytes hsh) = hexOfBytes (hsh.drop 12) := by
    unfold sliceLast40
    have h24 : (hexOfBytes hsh).length - 40 = 2 * 12 := by rw [hlen2]
    rw [h24, hexOfBytes_drop]
  rw [hslice]
  apply getAddress_lower40
  · intro c hc
    exact hexOfBytes_mem _ (fun x hx => hmem x (List.drop_subset 12 hsh hx)) c hc
  · rw [hexOfBytes_length, List.length_drop, hlen]

/-- C6: invalid-address error — with a representable fee,
`getPoolAddress` succeeds exactly when both token identifiers are
well-formed (accepted by `getAddress`), and when one is not, the
`getAddress` validation error is exactly what `getPoolAddress` throws
(the first argument being validated first). -/
theorem getPoolAddress_validation (a b : JStr) (fee : Nat) (hfee : fee < 16777216) :
    ((getPoolAddress a b fee).isOk = true ↔
      (getAddress a).isOk = true ∧ (getAddress b).isOk = true) ∧
    (∀ e, getAddress a = .error e → getPoolAddress a b fee = .error e) ∧
    (∀ ra e, getAddress a = .ok ra → getAddress b = .error e →
      getPoolAddress a b fee = .error e) := by
  cases hA : getAddress a with
  | error e =>
    have hr : getPoolAddress a b fee = .error e := by
      unfold getPoolAddress
      rw [hA]
      rfl
    rw [hr]
    refine ⟨⟨fun h => by simp [Except.isOk, Except.toBool] at h, ?_⟩, ?_, ?_⟩
    · rintro ⟨h1, -⟩
      simp [Except.isOk, Except.toBool] at h1
    · intro x hx
      exact hx
    · intro ra x hra _
      exact Except.noConfusion hra
  | ok ra =>
    cases hB : getAddress b with
    | error e =>
      have hr : getPoolAddress a b fee = .error e := by
        unfold getPoolAddress
        rw [hA, hB]
        rfl
      rw [hr]
      refine ⟨⟨fun h => by simp [Except.isOk, Except.toBool] at h, ?_⟩, ?_, ?_⟩
      · rintro ⟨-, h2⟩
        simp [Except.isOk, Except.toBool] at h2
      · intro x hx
        exact Except.noConfusion hx
      · intro ra2 x _ hbx
        exact hbx
    | ok rb =>
      obtain ⟨out, hr⟩ : ∃ out, getPoolAddress a b fee = .ok out := by
        unfold getPoolAddress
        rw [hA, hB, except_bind_ok, except_bind_ok]
        cases hlt : strLt (toLowerCodes ra) (toLowerCodes rb) <;>
          simp only [hlt, Bool.false_eq_true, if_false, if_true] <;>
          rw [if_pos hfee] <;>
          exact ⟨_, getAddress_slice_ok _ (keccak256_length _) (keccak256_lt _)⟩
      rw [hr]
      refine ⟨⟨fun _ => ⟨rfl, rfl⟩, fun _ => rfl⟩, ?_, ?_⟩
      · intro x hx
        exact Except.noConfusion hx
      · intro ra2 x _ hbx
        exact Except.noConfusion hbx

/-- Witness for C6 at the WETH/DAI fixture with fee 3000. -/
theorem getPoolAddress_validation_witness :
    (getPoolAddress (jcodes "0xC02aaA39b223FE8D0A0e5C4F27eAD9083C756Cc2")
        (jcodes "0x6B175474E89094C44Da98b954EedeAC495271d0F") 3000).isOk = true ↔
      (getAddress (jcodes "0xC02aaA39b223FE8D0A0e5C4F27eAD9083C756Cc2")).isOk = true ∧
        (getAddress (jcodes "0x6B175474E89094C44Da98b954EedeAC495271d0F")).isOk = true :=
  (getPoolAddress_validation (jcodes "0xC02aaA39b223FE8D0A0e5C4F27eAD9083C756Cc2")
      (jcodes "0x6B175474E89094C44Da98b954EedeAC495271d0F") 3000 (by norm_num)).1

set_option maxHeartbeats 2000000 in
/-- C2: Pool Locator algorithm — `getPoolAddress` of
`src/get_pool_address.js` coincides, for all inputs, with `locatePool`,
the step-by-step rendering of the algorithm of spec §4.1: normalise to
checksummed form, order ascending by lowercase value, first keccak
fingerprint of the packed ordered triple, second keccak fingerprint of
marker/factory/fingerprint/init-code-hash, and the checksummed low 20
bytes of the result. -/
theorem getPoolAddress_eq_locatePool (a b : JStr) (fee : Nat) :
    getPoolAddress a b fee = locatePool a b fee := by
  unfold getPoolAddress locatePool
  cases hA : getAddress a with
  | error e => rfl
  | ok ra =>
    cases hB : getAddress b with
    | error e => rfl
    | ok rb =>
      rw [except_bind_ok, except_bind_ok, except_bind_ok, except_bind_ok]
      cases hlt : strLt (toLowerCodes ra) (toLowerCodes rb) <;>
        simp only [hlt, Bool.false_eq_true, if_false, if_true] <;>
        (by_cases hf : fee < 16777216
         · rw [if_pos hf, if_pos hf,
             getAddress_slice_ok _ (keccak256_length _) (keccak256_lt _)]
         · rw [if_neg hf, if_neg hf])

theorem toLowerCodes_0x (x : JStr) :
    toLowerCodes (48 :: 120 :: x) = 48 :: 120 :: toLowerCodes x := rfl

set_option maxHeartbeats 2000000 in
/-- C1: order independence of the Pool Locator — for well-formed
token identifiers (both accepted by `getAddress`) and any fee,
`getPoolAddress tokenA tokenB fee = getPoolAddress tokenB tokenA fee`:
the two normalised tokens are ordered by their lowercase form before
hashing, and lexicographic comparison of the lowercase forms is
asymmetric and total (equal lowercase forms force equal checksummed
forms). -/
theorem getPoolAddress_order_independent (a b : JStr) (fee : Nat)
    (ha : (getAddress a).isOk = true) (hb : (getAddress b).isOk = true) :
    getPoolAddress a b fee = getPoolAddress b a fee := by
  obtain ⟨ra, hA⟩ : ∃ r, getAddress a = .ok r := by
    cases h : getAddress a with
    | ok r => exact ⟨r, rfl⟩
    | error e => rw [h] at ha; simp [Except.isOk, Except.toBool] at ha
  obtain ⟨rb, hB⟩ : ∃ r, getAddress b = .ok r := by
    cases h : getAddress b with
    | ok r => exact ⟨r, rfl⟩
    | error e => rw [h] at hb; simp [Except.isOk, Except.toBool] at hb
  unfold getPoolAddress
  rw [hA, hB, except_bind_ok, except_bind_ok, except_bind_ok, except_bind_ok]
  cases h1 : strLt (toLowerCodes ra) (toLowerCodes rb) with
  | true =>
    have h2 : strLt (toLowerCodes rb) (toLowerCodes ra) = false := strLt_asymm _ _ h1
    simp only [h1, h2, if_true, Bool.false_eq_true, if_false]
  | false =>
    cases h2 : strLt (toLowerCodes rb) (toLowerCodes ra) with
    | true => simp only [h1, h2, if_true, Bool.false_eq_true, if_false]
    | false =>
      have heq : toLowerCodes ra = toLowerCodes rb := strLt_conn _ _ h1 h2
      have hrr : ra = rb := by
        obtain ⟨da, hda, hma, hla⟩ := getAddress_ok_form hA
        obtain ⟨db, hdb, hmb, hlb⟩ := getAddress_ok_form hB
        rw [hda, hdb] at heq ⊢
        rw [toLowerCodes_0x, toLowerCodes_0x] at heq
        have heq2 : toLowerCodes (checksumCodes da) = toLowerCodes (checksumCodes db) := by
          injection heq with h heq1
          injection heq1 with h2 heq2
        rw [toLowerCodes_checksumCodes da hma hla, toLowerCodes_checksumCodes db hmb hlb]
          at heq2
        calc (48 : Nat) :: 120 :: checksumCodes da
            = 48 :: 120 :: checksumCodes (toLowerCodes da) := by
              rw [checksumCodes_of_lower]
          _ = 48 :: 120 :: checksumCodes (toLowerCodes db) := by rw [heq2]
          _ = 48 :: 120 :: checksumCodes db := by rw [checksumCodes_of_lower]
      rw [hrr]

/-- Witness for C1 at the WETH/DAI pair with fee 3000. -/
theorem getPoolAddress_order_independent_witness :
    getPoolAddress (jcodes "0xC02aaA39b223FE8D0A0e5C4F27eAD9083C756Cc2")
        (jcodes "0x6B175474E89094C44Da98b954EedeAC495271d0F") 3000 =
      getPoolAddress (jcodes "0x6B175474E89094C44Da98b954EedeAC495271d0F")
        (jcodes "0xC02aaA39b223FE8D0A0e5C4F27eAD9083C756Cc2") 3000 :=
  getPoolAddress_order_independent
    (jcodes "0xC02aaA39b223FE8D0A0e5C4F27eAD9083C756Cc2")
    (jcodes "0x6B175474E89094C44Da98b954EedeAC495271d0F") 3000 (by decide) (by decide)

/-- C3 (code bug): at the regression fixture — the WETH and DAI
mainnet addresses with fee tier 3000 — the code returns
`0x924E7C7344906dE8A5d89D81295Ab32484D097FA`, which differs from the
previously published Uniswap V3 mainnet pool address
`0xC2e9F25Be6257c210d7Adf0D4Cd6E3E881ba25f8`: the constant named
`POOL_INIT_CODE_HASH` is not the mainnet init code hash, and the salt
is hashed over the tightly packed triple whereas the deployed factory
hashes its 32-byte-padded ABI encoding. -/
theorem getPoolAddress_fixture :
    getPoolAddress (jcodes "0xC02aaA39b223FE8D0A0e5C4F27eAD9083C756Cc2")
        (jcodes "0x6B175474E89094C44Da98b954EedeAC495271d0F") 3000 =
      .ok (jcodes "0x924E7C7344906dE8A5d89D81295Ab32484D097FA") ∧
    (jcodes "0x924E7C7344906dE8A5d89D81295Ab32484D097FA" ==
      jcodes "0xC2e9F25Be6257c210d7Adf0D4Cd6E3E881ba25f8") = false :=
  ⟨by decide, by decide⟩
